import Mathlib

/-!
Verification of the request-routing / scoring / calendar-planning core of the
`assistant` repository, shallowly embedded in Lean 4.

Modelling conventions:
* Python strings are Lean `String`; `str.lower()` is `strLower`
  (ASCII-faithful for every string these claims touch).
* Python `needle in hay` (substring test) is `strHasSub hay needle`.
* Python floats are embedded as `ℚ`; all constants in the scoring code are
  decimal literals that are exact in `ℚ`, and every comparison the claims
  depend on is unaffected by this choice.
* Timezone-aware datetimes are embedded as `Int` epoch seconds (UTC);
  `datetime.isoformat` is modelled by the injective rendering `isoformat`.
-/

namespace Assistant

/-! ## Text utilities shared by the router and the scorers -/

/-- Model of Python `str.lower()`: `String.toLower` expressed through `List.map`
so that it reduces in the kernel (extensionally equal to `String.toLower`). -/
def strLower (s : String) : String :=
  String.mk (s.data.map Char.toLower)

/-- Whitespace in the sense of Python `str.strip()` (the ASCII cases). -/
def isPySpace (c : Char) : Bool :=
  c == ' ' || c == '\t' || c == '\n' || c == '\r' || c == Char.ofNat 11 || c == Char.ofNat 12

/-- Model of Python `str.strip()`. -/
def pyStrip (s : String) : String :=
  String.mk (((s.data.dropWhile isPySpace).reverse.dropWhile isPySpace).reverse)

/-- Model of Python `needle in hay` restricted to a match at position 0:
`needle` is a leading segment of `hay`. -/
def leadSeg : List Char → List Char → Bool
  | [], _ => true
  | _ :: _, [] => false
  | c :: ns, h :: hs => c == h && leadSeg ns hs

/-- Model of Python `needle in hay` (substring containment). -/
def strHasSub (hay needle : String) : Bool :=
  (List.range (hay.toList.length + 1)).any fun i => leadSeg needle.toList (hay.toList.drop i)

/-- `[a-z0-9]` after lowercasing: the character class of `re.findall(r"[a-z0-9]+", ...)`. -/
def isTokenChar (c : Char) : Bool :=
  (decide ('a' ≤ c) && decide (c ≤ 'z')) || (decide ('0' ≤ c) && decide (c ≤ '9'))

/-- Maximal runs of token characters, left to right: the semantics of
`re.findall(r"[a-z0-9]+", text)` on an already lowercased `text`. -/
def tokenRunsAux : List Char → List Char → List String
  | [], acc => if acc.isEmpty then [] else [String.mk acc.reverse]
  | c :: rest, acc =>
    if isTokenChar c then tokenRunsAux rest (c :: acc)
    else if acc.isEmpty then tokenRunsAux rest []
    else String.mk acc.reverse :: tokenRunsAux rest []

/-- `re.findall(r"[a-z0-9]+", text.lower())`. -/
def pyTokenRuns (text : String) : List String :=
  tokenRunsAux (strLower text).data []

/-- `STOPWORDS` of `scripts/agent.py` (lines 42-67). -/
def agentStopwords : List String :=
  ["the", "and", "or", "to", "a", "an", "of", "in", "for", "with", "is", "are",
   "be", "it", "this", "that", "my", "your", "from", "on", "by", "as", "at", "like"]

/-- `STOPWORDS` of `scripts/tool_request_scoring.py` (lines 7-46). -/
def scoringStopwords : List String :=
  ["the", "and", "or", "to", "a", "an", "of", "in", "for", "with", "is", "are",
   "be", "it", "this", "that", "my", "your", "from", "on", "by", "as", "at", "like",
   "i", "me", "you", "we", "our", "want", "need", "lets", "let", "take", "make",
   "build", "implement", "create"]

/-- `scripts/agent.py` `_tokenize` (lines 143-145). -/
def agentTokenize (text : String) : List String :=
  (pyTokenRuns text).filter fun token => !(agentStopwords.contains token)

/-- `scripts/tool_request_scoring.py` `tokenize` (lines 73-75). -/
def scoringTokenize (text : String) : List String :=
  (pyTokenRuns text).filter fun token => !(scoringStopwords.contains token)

/-! ## Correction confidence scorer (`scripts/agent.py` `_compute_confidence`) -/

/-- A Notion candidate record as consumed by `_compute_confidence`
(only the fields the function reads). -/
structure Candidate where
  id : String := ""
  title : String := ""
  url : String := ""
deriving Repr, DecidableEq

/-- Rule 1 of `_compute_confidence`: the extracted old quoted phrase is truthy
and appears case-insensitively in the candidate title (+0.45). -/
def confRuleQuoted (candidate : Candidate) (oldPhrase : Option String) : Bool :=
  match oldPhrase with
  | none => false
  | some op => !(op == "") && strHasSub (strLower candidate.title) (strLower op)

/-- Rule 2 of `_compute_confidence`: the candidate sits at position 0 or 1 of the
caller-supplied pool (+0.20).  Python identifies the candidate by object identity
(`item is candidate`); the model uses first structural match. -/
def confRuleRecency (candidate : Candidate) (candidates : List Candidate) : Bool :=
  match candidates.findIdx? (fun item => item == candidate) with
  | none => false
  | some idx => decide (idx ≤ 1)

/-- Rule 3 of `_compute_confidence`: negation / correction phrasing (+0.20). -/
def confRuleNegation (request : String) : Bool :=
  (strHasSub (strLower request) "not " && strHasSub (strLower request) " but ")
    || strHasSub (strLower request) "instead of"
    || strHasSub (strLower request) "misinterpreted"

/-- Rule 4 of `_compute_confidence`: the token sets of the request and of the
candidate title share at least two tokens after stopword removal (+0.15). -/
def confRuleOverlap (request : String) (candidate : Candidate) : Bool :=
  decide (2 ≤ ((agentTokenize request).dedup.filter
      fun token => (agentTokenize candidate.title).contains token).length)

/-- `scripts/agent.py` `_compute_confidence` (lines 198-257): the sum of the fixed
bonuses of the triggered rules, clamped to `[0,1]`; the breakdown is returned as
the list of triggered rule names. -/
def computeConfidence (request : String) (candidate : Candidate)
    (candidates : List Candidate) (oldPhrase : Option String) : ℚ × List String :=
  let s1 : ℚ := if confRuleQuoted candidate oldPhrase then 0.45 else 0
  let s2 : ℚ := if confRuleRecency candidate candidates then 0.20 else 0
  let s3 : ℚ := if confRuleNegation request then 0.20 else 0
  let s4 : ℚ := if confRuleOverlap request candidate then 0.15 else 0
  let breakdown :=
    (if confRuleQuoted candidate oldPhrase then ["quoted_phrase_match"] else [])
      ++ (if confRuleRecency candidate candidates then ["recency_bonus"] else [])
      ++ (if confRuleNegation request then ["negation_pattern"] else [])
      ++ (if confRuleOverlap request candidate then ["keyword_overlap"] else [])
  (max 0 (min (s1 + s2 + s3 + s4) 1), breakdown)

/-! ## Backlog heuristic ranker (`scripts/llm_decider.py`) -/

/-- A backlog candidate as consumed by `_best_score` (the fields it reads).
`domain` is kept as the already-split list form; the comma-separated string
form of the source normalizes to the same list. -/
structure DCandidate where
  id : String := ""
  title : String := ""
  url : String := ""
  status : String := ""
  impact : String := ""
  frequency : String := ""
  recencyDays : Option Int := none
  domain : List String := []
deriving Repr, DecidableEq

/-- `IMPACT_SCORES` of `scripts/llm_decider.py` (line 26), read with `.get(default 0)`. -/
def impactScores : List (String × ℕ) :=
  [("high", 3), ("medium", 2), ("low", 1)]

/-- `FREQUENCY_SCORES` of `scripts/llm_decider.py` (lines 27-32). -/
def frequencyScores : List (String × ℕ) :=
  [("many-times-per-day", 4), ("daily", 3), ("weekly", 2), ("once", 1)]

/-- `DOMAIN_BONUS` of `scripts/llm_decider.py` (line 33). -/
def domainBonusSet : List String :=
  ["inventory", "pantry", "capture", "recipe", "recipes"]

/-- The five score components of `_best_score` (lines 46-78). -/
structure ScoreParts where
  statusScore : ℕ
  impactScore : ℕ
  frequencyScore : ℕ
  recencyScore : ℕ
  domainBonus : ℕ
deriving Repr, DecidableEq

/-- `scripts/llm_decider.py` `_best_score` (lines 46-78): status / impact /
frequency / recency / domain-bonus components and their sum. -/
def bestScore (c : DCandidate) : ℚ × ScoreParts :=
  let status := strLower c.status
  let impact := strLower c.impact
  let frequency := strLower c.frequency
  let domain :=
    ((c.domain.map fun part => pyStrip part).filter fun part => !(part == "")).map
      fun part => strLower part
  let statusScore : ℕ := if status = "new" ∨ status = "triaging" then 2 else 0
  let impactScore : ℕ := ((impactScores.lookup impact).getD 0)
  let frequencyScore : ℕ := ((frequencyScores.lookup frequency).getD 0)
  let recencyScore : ℕ :=
    match c.recencyDays with
    | none => 0
    | some d => if d ≤ 7 then 2 else if d ≤ 30 then 1 else 0
  let domainBonus : ℕ := if domain.any (fun d => domainBonusSet.contains d) then 1 else 0
  (((statusScore + impactScore + frequencyScore + recencyScore + domainBonus : ℕ) : ℚ),
   ⟨statusScore, impactScore, frequencyScore, recencyScore, domainBonus⟩)

/-- A ranked entry of the generic branch of `_heuristic_decide` (lines 86-98). -/
structure Ranked where
  id : String
  title : String
  url : String
  score : ℚ
  parts : ScoreParts
deriving Repr, DecidableEq

/-- The ranked list of the generic branch of `_heuristic_decide`: map
`_best_score` over the pool, then stable-sort descending by score
(`ranked.sort(key=..., reverse=True)`, lines 86-99); `insertionSort` by the
descending key is a stable sort, matching Python's. -/
def heuristicRank (cands : List DCandidate) : List Ranked :=
  (cands.map fun item =>
      { id := item.id, title := item.title, url := item.url
        score := (bestScore item).1, parts := (bestScore item).2 }).insertionSort
    fun a b => b.score ≤ a.score

/-- The top-pick confidence of the generic branch of `_heuristic_decide`
(lines 100-106): `max(top - second, 0) / max(top, 1)`, with `second = 0`
when the pool has fewer than two entries and `0.0` for an empty pool. -/
def heuristicConfidence (cands : List DCandidate) : ℚ :=
  match heuristicRank cands with
  | [] => 0
  | top :: rest =>
    let second := ((rest.head?.map fun r => r.score).getD 0)
    max (top.score - second) 0 / max top.score 1

/-! ## Natural-language router (`scripts/agent.py` `_route`, lines 260-292).
The model returns the route name; the route-specific parameter extraction of
the returned tuple's second component is not consumed by any claim and is not
modelled. -/

/-- `ROUTE_LIST` (line 22). -/
def routeListKeywords : List String :=
  ["list wishes", "show tool requests", "list tool requests", "show wishes"]

/-- `ROUTE_PICK` (line 23). -/
def routePickKeywords : List String :=
  ["pick", "choose", "what to build", "next tool", "triage", "what should we build"]

/-- `ROUTE_SCAFFOLD` (line 24). -/
def routeScaffoldKeywords : List String :=
  ["scaffold", "start project", "start a project", "create tool", "implement"]

/-- `ROUTE_DEPLOY` (line 25). -/
def routeDeployKeywords : List String :=
  ["deploy", "ship", "push to vm"]

/-- `ROUTE_SEARCH` (line 26). -/
def routeSearchKeywords : List String :=
  ["search", "find", "lookup"]

/-- `EDIT_NOTION_KEYWORDS` (lines 28-38). -/
def editNotionKeywords : List String :=
  ["edit", "update", "change", "fix", "correct", "rename", "set", "add tag", "remove tag"]

/-- `scripts/agent.py` `_should_set_prefs` (lines 124-126). -/
def shouldSetPrefs (request : String) : Bool :=
  strHasSub (strLower request) "auto apply" || strHasSub (strLower request) "auto-apply"

/-- `scripts/agent.py` `_should_correct_tool_request` (lines 129-133). -/
def shouldCorrectToolRequest (request : String) : Bool :=
  (strHasSub (strLower request) "tool request"
      || strHasSub (strLower request) "tool requests"
      || strHasSub (strLower request) "friction log")
    && (["fix", "correct", "change", "update", "edit"].any fun w =>
        strHasSub (strLower request) w)

/-- `scripts/agent.py` `_should_edit_notion` (lines 136-140). -/
def shouldEditNotion (request : String) : Bool :=
  strHasSub (strLower request) "notion"
    && (editNotionKeywords.any fun k => strHasSub (strLower request) k)

/-- `[a-zA-Z0-9_-]`: the tool-name character class of the `call` regex
(`[a-z0-9_-]` under `re.IGNORECASE`). -/
def isCallNameChar (c : Char) : Bool :=
  (decide ('a' ≤ c) && decide (c ≤ 'z')) || (decide ('A' ≤ c) && decide (c ≤ 'Z'))
    || (decide ('0' ≤ c) && decide (c ≤ '9')) || c == '_' || c == '-'

/-- Model of `re.match(r"^\s*call\s+([a-z0-9_-]+)\s*(\{.*\})?\s*$", request,
re.IGNORECASE)` (lines 270-274): skip leading whitespace, the literal `call`
case-insensitively, at least one whitespace, a non-empty tool name, then either
nothing or a brace-delimited argument blob with no newline (since `.` does not
match a newline), up to trailing whitespace.  Returns the lowercased tool name
and the optional raw argument text. -/
def callMatch (request : String) : Option (String × Option String) :=
  let cs := request.data.dropWhile isPySpace
  if leadSeg "call".data (cs.map Char.toLower) then
    let afterCall := cs.drop 4
    match afterCall.head? with
    | none => none
    | some c0 =>
      if isPySpace c0 then
        let afterWs := afterCall.dropWhile isPySpace
        let nameChars := afterWs.takeWhile isCallNameChar
        if nameChars.isEmpty then none
        else
          let tool := String.mk (nameChars.map Char.toLower)
          let rest := (afterWs.drop nameChars.length).dropWhile isPySpace
          if rest.isEmpty then some (tool, none)
          else
            let body := (rest.reverse.dropWhile isPySpace).reverse
            if body.head? == some '{' && body.getLast? == some '}'
                && !(body.contains '\n') then
              some (tool, some (String.mk body))
            else none
      else none
  else none

/-- `scripts/agent.py` `_route` (lines 260-292): the classified route name,
rules evaluated in the source's order. -/
def route (request : String) (forceScaffold : Bool) : String :=
  let lower := strLower request
  if forceScaffold then "scaffold"
  else if ["apply that", "apply last preview", "apply last correction"].contains
      (pyStrip lower) then "apply_last"
  else if shouldSetPrefs request then "prefs"
  else if shouldCorrectToolRequest request then "correct_tool_request"
  else if (callMatch request).isSome then "call"
  else if routeDeployKeywords.any (fun w => strHasSub lower w) then "deploy"
  else if shouldEditNotion request then "edit_notion"
  else if routeScaffoldKeywords.any (fun w => strHasSub lower w) then "scaffold"
  else if routePickKeywords.any (fun w => strHasSub lower w) then "triage"
  else if routeSearchKeywords.any (fun w => strHasSub lower w) then "search"
  else if routeListKeywords.any (fun w => strHasSub lower w) then "list"
  else "unknown"

/-! ## Preference-request parser (`scripts/agent.py` `_parse_prefs_request`) -/

/-- A JSON-ish preference value. -/
inductive PVal where
  | pb (b : Bool)
  | pn (q : ℚ)
  | ps (s : String)
  | plist (l : List String)
deriving Repr, DecidableEq

/-- A preference mapping (Python dict), as a key-indexed partial map. -/
abbrev Prefs := String → Option PVal

/-- `updated[key] = v` on a copy of the dict. -/
def prefsSet (p : Prefs) (key : String) (v : PVal) : Prefs :=
  fun k => if k = key then some v else p k

/-- `[0-9.]`: the captured character class of the threshold regex. -/
def isNumChar (c : Char) : Bool :=
  (decide ('0' ≤ c) && decide (c ≤ '9')) || c == '.'

/-- One anchored attempt of `auto apply threshold to\s*([0-9.]+)` at the head of
`cs`: the 23-character literal, optional whitespace, then a non-empty maximal
run of `[0-9.]` (the captured group). -/
def thresholdMatchAt (cs : List Char) : Option String :=
  if leadSeg "auto apply threshold to".data cs then
    let digits := ((cs.drop 23).dropWhile isPySpace).takeWhile isNumChar
    if digits.isEmpty then none else some (String.mk digits)
  else none

/-- `re.search` of the threshold pattern: first position (left to right) where
the anchored attempt succeeds. -/
def thresholdScan : List Char → Option String
  | [] => none
  | c :: rest =>
    match thresholdMatchAt (c :: rest) with
    | some g => some g
    | none => thresholdScan rest

/-- `n` from a digit run. -/
def digitsToNat (ds : List Char) : ℕ :=
  ds.foldl (fun n c => n * 10 + (c.toNat - 48)) 0

/-- Model of Python `float(s)` on a string drawn from `[0-9.]+`: accepted iff it
has at least one digit and at most one dot. -/
def parsePyFloat (s : String) : Option ℚ :=
  let cs := s.data
  if cs.any (fun c => decide ('0' ≤ c) && decide (c ≤ '9'))
      && decide (cs.countP (fun c => c == '.') ≤ 1) then
    let intPart := cs.takeWhile fun c => !(c == '.')
    let fracPart := (cs.dropWhile fun c => !(c == '.')).drop 1
    some ((digitsToNat intPart : ℚ) + (digitsToNat fracPart : ℚ) / (10 ^ fracPart.length))
  else none

/-- `scripts/agent.py` `_parse_prefs_request` (lines 388-402).  A stored
non-numeric `auto_apply_threshold` would raise `TypeError` in Python before
returning; the model reads it as the numeric value or the 0.92 default. -/
def parsePrefsRequest (request : String) (prefs : Prefs) : Prefs :=
  let lower := strLower request
  let u1 := if strHasSub lower "enable auto apply" || strHasSub lower "enable auto-apply"
    then prefsSet prefs "auto_apply_enabled" (.pb true) else prefs
  let u2 := if strHasSub lower "disable auto apply" || strHasSub lower "disable auto-apply"
    then prefsSet u1 "auto_apply_enabled" (.pb false) else u1
  match thresholdScan lower.data with
  | none => u2
  | some g =>
    let value : ℚ :=
      match parsePyFloat g with
      | some v => v
      | none =>
        match prefs "auto_apply_threshold" with
        | some (.pn q) => q
        | _ => 0.92
    prefsSet u2 "auto_apply_threshold" (.pn (max 0 (min value 1)))

/-! ## ISO-8601 timestamps (`datetime.fromisoformat`)

Model of Python's `datetime.fromisoformat` on the `YYYY-MM-DD[*HH[:MM[:SS
[.ffffff]]][±HH:MM[:SS]]]` shapes it documents (`*` any single separator
character).  The result is UTC epoch seconds plus an awareness flag;
sub-second fractions are validated but dropped (no claim depends on them). -/

/-- `[0-9]`. -/
def isDigit (c : Char) : Bool :=
  decide ('0' ≤ c) && decide (c ≤ '9')

/-- Exactly `n` leading digits, returning their value and the rest. -/
def readNat (cs : List Char) (n : ℕ) : Option (ℕ × List Char) :=
  let ds := cs.take n
  if ds.length = n ∧ ds.all isDigit then some (digitsToNat ds, cs.drop n) else none

/-- Consume one expected character. -/
def expectChar (c : Char) : List Char → Option (List Char)
  | [] => none
  | x :: rest => if x == c then some rest else none

/-- Gregorian leap year. -/
def isLeapYear (y : ℕ) : Bool :=
  (y % 4 == 0 && !(y % 100 == 0)) || y % 400 == 0

/-- Days in a month of the proleptic Gregorian calendar. -/
def daysInMonth (y m : ℕ) : ℕ :=
  if m = 2 then (if isLeapYear y then 29 else 28)
  else if m = 4 ∨ m = 6 ∨ m = 9 ∨ m = 11 then 30 else 31

/-- Days since 1970-01-01 of the civil date `(y, m, d)` (Hinnant's algorithm). -/
def daysFromCivil (y m d : Int) : Int :=
  let y' := if m ≤ 2 then y - 1 else y
  let era := Int.fdiv y' 400
  let yoe := y' - era * 400
  let mp := Int.fdiv (m + 9) 12 * 12
  let doy := Int.fdiv (153 * (m + 9 - mp) + 2) 5 + d - 1
  let doe := yoe * 365 + Int.fdiv yoe 4 - Int.fdiv yoe 100 + doy
  era * 146097 + doe - 719468

/-- A parsed timestamp: UTC epoch seconds and whether an offset was present. -/
structure IsoStamp where
  seconds : Int
  aware : Bool
deriving Repr, DecidableEq

/-- `[:MM[:SS[.ffffff]]]` after the hour: seconds within the hour and the rest. -/
def parseMinSec (cs : List Char) : Option (ℕ × List Char) :=
  match cs with
  | ':' :: r => do
    let (mm, r2) ← readNat r 2
    guard (mm ≤ 59)
    match r2 with
    | ':' :: r3 => do
      let (ss, r4) ← readNat r3 2
      guard (ss ≤ 59)
      match r4 with
      | '.' :: r5 =>
        let ds := r5.takeWhile isDigit
        if 1 ≤ ds.length ∧ ds.length ≤ 6 then pure (mm * 60 + ss, r5.drop ds.length)
        else none
      | _ => pure (mm * 60 + ss, r4)
    | _ => pure (mm * 60, r2)
  | _ => pure (0, cs)

/-- An optional `±HH:MM[:SS]` offset: offset seconds (if present) and the rest. -/
def parseOffsetOpt (cs : List Char) : Option (Option Int × List Char) :=
  match cs with
  | [] => some (none, [])
  | c :: r =>
    if c == '+' || c == '-' then do
      let (hh, r2) ← readNat r 2
      let r3 ← expectChar ':' r2
      let (mm, r4) ← readNat r3 2
      guard (hh ≤ 23 ∧ mm ≤ 59)
      let (ss, r5) ←
        match r4 with
        | ':' :: rr => do
          let (ss, r5) ← readNat rr 2
          guard (ss ≤ 59)
          pure ((ss : ℕ), r5)
        | _ => pure ((0 : ℕ), r4)
      let sign : Int := if c == '-' then -1 else 1
      pure (some (sign * ((hh : Int) * 3600 + (mm : Int) * 60 + (ss : Int))), r5)
    else some (none, cs)

/-- Model of `datetime.fromisoformat`. -/
def parseIso (s : String) : Option IsoStamp := do
  let (y, r1) ← readNat s.data 4
  let r2 ← expectChar '-' r1
  let (mo, r3) ← readNat r2 2
  let r4 ← expectChar '-' r3
  let (d, r5) ← readNat r4 2
  guard (1 ≤ mo ∧ mo ≤ 12 ∧ 1 ≤ d ∧ d ≤ daysInMonth y mo)
  let dayStart : Int := daysFromCivil (y : Int) (mo : Int) (d : Int) * 86400
  match r5 with
  | [] => pure ⟨dayStart, false⟩
  | _sep :: r6 => do
    let (hh, r7) ← readNat r6 2
    guard (hh ≤ 23)
    let (msec, r8) ← parseMinSec r7
    let (off, r9) ← parseOffsetOpt r8
    guard (r9 = [])
    match off with
    | none => pure ⟨dayStart + (hh : Int) * 3600 + (msec : Int), false⟩
    | some o => pure ⟨dayStart + (hh : Int) * 3600 + (msec : Int) - o, true⟩

/-! ## Preview freshness and the `apply_last` gate (`scripts/agent.py`) -/

/-- `scripts/agent.py` `_preview_is_fresh` (lines 159-165).  A `ValueError`
from parsing is caught and yields `false`; the `Except` error models the
uncaught `TypeError` Python would raise when subtracting a parsed *naive*
datetime from `datetime.now(timezone.utc)`. -/
def previewIsFresh (now : Int) (timestamp : String) : Except String Bool :=
  match parseIso timestamp with
  | none => .ok false
  | some stamp =>
    if stamp.aware then .ok (decide (now - stamp.seconds ≤ 24 * 3600))
    else .error "TypeError: naive datetime"

/-- The last-preview cache entry, with the fields the `apply_last` branch reads
(`str(preview.get("timestamp") or "")` is the `timestamp` field). -/
structure Preview where
  type : String := ""
  pageId : String := ""
  timestamp : String := ""
deriving Repr, DecidableEq

/-- Outcome of the `apply_last` branch. -/
inductive ApplyLastOutcome where
  | previewOnly
  | applied (pageId : String)
  | failed (err : String)
deriving Repr, DecidableEq

/-- The `apply_last` branch of `scripts/agent.py` `main` (lines 570-590): on
`--execute`, a missing preview, a non-correction preview, a naive-timestamp
`TypeError`, or a stale/unparseable timestamp without `--force` each raise
(caught into the errors envelope, so nothing is applied); otherwise the
`notion_update_page` call fires on the preview's page. -/
def applyLastGate (dryRun force : Bool) (preview : Option Preview) (now : Int) :
    ApplyLastOutcome :=
  if dryRun then .previewOnly
  else
    match preview with
    | none => .failed "No last preview found."
    | some p =>
      if !(p.type == "notion_correction") then
        .failed "Last preview is not a Notion correction."
      else
        match previewIsFresh now p.timestamp with
        | .error e => .failed e
        | .ok fresh =>
          if !fresh && !force then
            .failed "Last preview is older than 24h. Re-run with --force."
          else .applied p.pageId

/-! ## Calendar hygiene planner (`tools/calendar_hygiene/calendar_hygiene.py`)

Datetimes are epoch seconds (`Int`); `datetime.isoformat()` is modelled by the
injective decimal rendering `isoformat`.  `sha1(...).hexdigest()[:10]` is
modelled by the deterministic 40-bit `hashChars` digest rendered as 10 hex
characters — every property below depends only on the digest being a function
of the seed.  Python's stable `list.sort` / `sorted` is `List.insertionSort` (both stable). -/

/-- Stand-in for `datetime.isoformat()` under the epoch-seconds embedding. -/
def isoformat (t : Int) : String :=
  toString t

/-- A calendar event (`Event` dataclass, lines 53-62).  `endTime` is the
dataclass's `end` field. -/
structure Event where
  eventId : String := ""
  title : String := ""
  start : Int := 0
  endTime : Int := 0
  description : String := ""
  location : String := ""
  isAllDay : Bool := false
  isPrivate : Bool := false
deriving Repr, DecidableEq

/-- Deterministic stand-in for the first 40 bits of the seed's SHA-1. -/
def hashChars (cs : List Char) : ℕ :=
  cs.foldl (fun h c => (h * 131 + c.toNat) % 2 ^ 40) 7

/-- A hex digit. -/
def hexChar (n : ℕ) : Char :=
  if n < 10 then Char.ofNat (48 + n) else Char.ofNat (87 + n)

/-- Exactly ten hex characters of a 40-bit value. -/
def hex10 (n : ℕ) : String :=
  String.mk (((List.range 10).reverse).map fun i => hexChar (n / 16 ^ i % 16))

/-- `_action_id` (lines 258-260): `"act-"` plus the first ten hex digest chars
of the seed. -/
def actionId (seed : String) : String :=
  "act-" ++ hex10 (hashChars seed.data)

/-- `MEDICAL_KEYWORDS` (lines 33-49). -/
def medicalKeywordList : List String :=
  ["doctor", "hospital", "appointment", "mri", "clinic", "physio",
   "physiotherapy", "neurologist", "infusion", "dentist", "therapy", "scan",
   "surgery", "lab", "bloodwork"]

/-- `_medical_keywords` (lines 263-265). -/
def medicalKeywords (title : String) : List String :=
  medicalKeywordList.filter fun keyword => strHasSub (strLower title) keyword

/-- A proposed action (the dict literals of `_build_actions`); absent dict keys
are `none` / the empty default. -/
structure Action where
  actionId : String := ""
  type : String := ""
  start : Option String := none
  endTime : Option String := none
  title : Option String := none
  targetEventId : Option String := none
  minutes : Option ℕ := none
  reason : String := ""
  reasoning : String := ""
  confidence : ℚ := 0
  risk : String := ""
  relatedEventId : Option String := none
deriving Repr, DecidableEq

/-- An apostrophe (kept out of string literals). -/
def sq : String :=
  String.mk [Char.ofNat 39]

/-- Python `f"{gap_minutes:.1f}"` for a gap of `secs` seconds: tenths of a
minute with `⌊· + 1/2⌋` rounding — a kernel-computable stand-in for float
formatting. -/
def fmtMin1 (secs : Int) : String :=
  let tenths := Int.fdiv (secs + 3) 6
  if tenths < 0 then "-" ++ toString ((-tenths) / 10) ++ "." ++ toString ((-tenths) % 10)
  else toString (tenths / 10) ++ "." ++ toString (tenths % 10)

/-- Python `f"{total_minutes:.0f}"` for `secs` seconds: whole minutes with
`⌊· + 1/2⌋` rounding. -/
def fmtMin0 (secs : Int) : String :=
  toString (Int.fdiv (secs + 30) 60)

/-- `_overlaps` (lines 214-222): open-interval intersection with any event,
skipping `exclude_id` when it is truthy (a non-empty id). -/
def overlapsAny (s e : Int) (events : List Event) (excludeId : Option String) : Bool :=
  events.any fun ev =>
    !(match excludeId with
      | some x => !(x == "") && ev.eventId == x
      | none => false)
      && decide (s < ev.endTime) && decide (e > ev.start)

/-- `_event_duration_minutes` (lines 225-226), as a `ℚ` for the statements. -/
def eventDurationMinutes (ev : Event) : ℚ :=
  ((ev.endTime - ev.start : Int) : ℚ) / 60

/-- The scan loop of `_find_free_slot` (lines 248-256), with its early return:
the first cursor where the duration fits before the next interval, else the
final window check. -/
def scanSlots (dur windowEnd : Int) : Int → List (Int × Int) → Option Int
  | cursor, [] => if cursor + dur ≤ windowEnd then some cursor else none
  | cursor, (s, e) :: rest =>
    if cursor + dur ≤ s then some cursor
    else scanSlots dur windowEnd (if e > cursor then e else cursor) rest

/-- `_find_free_slot` (lines 229-256). -/
def findFreeSlot (events : List Event) (windowStart windowEnd : Int)
    (durationMinutes : ℕ) (blocked : List (Int × Int)) : Option Int :=
  if windowEnd ≤ windowStart then none
  else
    let dur : Int := (durationMinutes : Int) * 60
    let intervals :=
      ((events.filter fun ev =>
          decide (windowStart < ev.endTime) && decide (ev.start < windowEnd)).map
        fun ev => (ev.start, ev.endTime)) ++ blocked
    scanSlots dur windowEnd windowStart
      (intervals.insertionSort fun a b => a.1 ≤ b.1)

/-- The `slot_free` closure of `_build_actions` (lines 276-282): free of every
event (minus the excluded one) and of every reserved interval. -/
def slotFree (events : List Event) (blocked : List (Int × Int)) (s e : Int)
    (excl : Option String) : Bool :=
  !(overlapsAny s e events excl)
    && blocked.all fun bi => !(decide (s < bi.2) && decide (e > bi.1))

/-- `sorted(events, key=lambda event: event.start)` (line 273); `insertionSort`
by the key is a stable sort, matching Python's. -/
def sortEvents (events : List Event) : List Event :=
  events.insertionSort fun a b => a.start ≤ b.start

/-- Minutes of gap between two events (line 289), as a `ℚ` for the statements;
the planner's comparisons are carried out on the exactly equivalent
seconds-valued conditions. -/
def gapMinutes (c n : Event) : ℚ :=
  ((n.start - c.endTime : Int) : ℚ) / 60

/-- The `suggest_shorten` action of heuristic A (lines 296-311). -/
def shortenAction (c n : Event) : Action :=
  { actionId := actionId ("suggest_shorten:" ++ c.eventId ++ ":" ++ n.eventId
      ++ ":" ++ isoformat c.endTime)
    type := "suggest_shorten"
    targetEventId := some c.eventId
    minutes := some 5
    reason := "Back-to-back events with no buffer."
    reasoning := "Gap is " ++ fmtMin1 (n.start - c.endTime) ++ " minutes between "
      ++ sq ++ c.title ++ sq ++ " and " ++ sq ++ n.title ++ sq ++ "."
    confidence := 0.4
    risk := "low" }

/-- The `f"[Back-to-back] {current.title} -> {next_event.title}: ..."` line of
the overlap branch (lines 291-293). -/
def overlapLog (c n : Event) : String :=
  "[Back-to-back] " ++ c.title ++ " -> " ++ n.title ++ ": overlap ("
    ++ fmtMin1 (n.start - c.endTime) ++ "m); no action."

/-- One adjacent pair of heuristic A (lines 288-318): overlap is logged only,
a gap of at most five minutes (`gap_minutes <= 5`, i.e. at most 300 seconds)
yields the shorten suggestion, larger gaps are logged only. -/
def pairStep (c n : Event) : List Action × List String :=
  let gapSecs := n.start - c.endTime
  if gapSecs < 0 then
    ([], [overlapLog c n])
  else if gapSecs ≤ 300 then
    ([shortenAction c n],
     ["[Back-to-back] " ++ c.title ++ " -> " ++ n.title ++ ": gap "
       ++ fmtMin1 gapSecs ++ "m; suggest shorten."])
  else
    ([], ["[Back-to-back] " ++ c.title ++ " -> " ++ n.title ++ ": gap "
      ++ fmtMin1 gapSecs ++ "m; no action."])

/-- Heuristic A over `zip(events_sorted, events_sorted[1:])`. -/
def phaseA (sortedEvents : List Event) : List Action × List String :=
  ((sortedEvents.zip sortedEvents.tail).flatMap fun p => (pairStep p.1 p.2).1,
   (sortedEvents.zip sortedEvents.tail).flatMap fun p => (pairStep p.1 p.2).2)

/-- The medical prep block of heuristic B (lines 335-366). -/
def prepAction (ev : Event) : Action :=
  { actionId := actionId ("create_block:prep:" ++ ev.eventId ++ ":"
      ++ isoformat ev.start)
    type := "create_block"
    start := some (isoformat (ev.start - 15 * 60))
    endTime := some (isoformat ev.start)
    title := some (if !(ev.location == "") then "Prep/Travel to " ++ ev.location
      else "Prep: " ++ ev.title)
    reason := if !(ev.location == "") then "Prep/travel buffer before appointment."
      else "Medical prep buffer before appointment."
    reasoning := "Keyword match: " ++ String.intercalate ", " (medicalKeywords ev.title)
      ++ "."
    confidence := 0.7
    risk := "low"
    relatedEventId := some ev.eventId }

/-- The travel block of heuristic B (lines 372-398). -/
def travelAction (ev : Event) : Action :=
  { actionId := actionId ("create_block:travel_from:" ++ ev.eventId ++ ":"
      ++ isoformat ev.endTime)
    type := "create_block"
    start := some (isoformat ev.endTime)
    endTime := some (isoformat (ev.endTime + 15 * 60))
    title := some ("Travel from " ++ ev.location)
    reason := "Travel buffer after medical appointment."
    reasoning := "Location present; add travel buffer."
    confidence := 0.7
    risk := "low"
    relatedEventId := some ev.eventId }

/-- The prep-slot half of one heuristic-B iteration (lines 335-370):
actions, debug lines and the updated reserved intervals. -/
def prepPart (events : List Event) (blocked : List (Int × Int)) (ev : Event) :
    List Action × List String × List (Int × Int) :=
  let prepStart := ev.start - 15 * 60
  let prepEnd := ev.start
  if slotFree events blocked prepStart prepEnd (some ev.eventId) then
    ([prepAction ev], ["[Medical] " ++ ev.title ++ ": prep block proposed."],
     blocked ++ [(prepStart, prepEnd)])
  else
    ([], ["[Medical] " ++ ev.title ++ ": prep block skipped (slot overlaps)."],
     blocked)

/-- The travel-slot half of one heuristic-B iteration (lines 372-402). -/
def travelPart (events : List Event) (blocked : List (Int × Int)) (ev : Event) :
    List Action × List String × List (Int × Int) :=
  if !(ev.location == "") then
    let travelStart := ev.endTime
    let travelEnd := ev.endTime + 15 * 60
    if slotFree events blocked travelStart travelEnd (some ev.eventId) then
      ([travelAction ev],
       ["[Medical] " ++ ev.title ++ ": travel-from block proposed."],
       blocked ++ [(travelStart, travelEnd)])
    else
      ([],
       ["[Medical] " ++ ev.title ++ ": travel-from block skipped (slot overlaps)."],
       blocked)
  else ([], [], blocked)

/-- One heuristic-B iteration (lines 321-402): private events and events
without medical keywords are logged only. -/
def medicalStep (events : List Event) (blocked : List (Int × Int)) (ev : Event) :
    List Action × List String × List (Int × Int) :=
  if ev.isPrivate then
    ([], ["[Medical] " ++ ev.title ++ ": private event; keyword heuristics skipped."],
     blocked)
  else if (medicalKeywords ev.title).isEmpty then
    ([], ["[Medical] " ++ ev.title ++ ": no medical keywords matched."], blocked)
  else
    let p := prepPart events blocked ev
    let t := travelPart events p.2.2 ev
    (p.1 ++ t.1, p.2.1 ++ t.2.1, t.2.2)

/-- Heuristic B over the sorted events, threading the reserved intervals. -/
def phaseB (events : List Event) : List Event → List (Int × Int) →
    List Action × List String × List (Int × Int)
  | [], blocked => ([], [], blocked)
  | ev :: rest, blocked =>
    let s := medicalStep events blocked ev
    let r := phaseB events rest s.2.2
    (s.1 ++ r.1, s.2.1 ++ r.2.1, r.2.2)

/-- `event.start.date().isoformat()` under the epoch embedding: the civil day
index (UTC), rendered by `isoformat`; sorting day keys by this integer matches
Python's lexicographic sort of ISO date strings. -/
def dayKey (t : Int) : Int :=
  Int.fdiv t 86400

/-- Appending an event to its day bucket, preserving dict insertion order
(`events_by_day.setdefault(day_key, []).append(event)`, lines 405-408). -/
def addToDay (k : Int) (ev : Event) : List (Int × List Event) → List (Int × List Event)
  | [] => [(k, [ev])]
  | (k', evs) :: rest =>
    if k' = k then (k', evs ++ [ev]) :: rest else (k', evs) :: addToDay k ev rest

/-- `events_by_day` grouped from the sorted events, then
`sorted(events_by_day.items())` (line 410). -/
def groupDays (sortedEvents : List Event) : List (Int × List Event) :=
  (sortedEvents.foldl (fun acc ev => addToDay (dayKey ev.start) ev acc) []).insertionSort
    fun a b => a.1 ≤ b.1

/-- The daily planning anchor action (lines 452-467). -/
def anchorAction (dk : Int) (dayEvents : List Event) (slot : Int) : Action :=
  { actionId := actionId ("create_block:daily_admin:" ++ isoformat dk ++ ":"
      ++ isoformat slot)
    type := "create_block"
    start := some (isoformat slot)
    endTime := some (isoformat (slot + 20 * 60))
    title := some "Daily planning/admin"
    reason := "High-activity day needs a planning anchor."
    reasoning := toString dayEvents.length ++ " events totaling "
      ++ fmtMin0 ((dayEvents.map fun ev => ev.endTime - ev.start).sum) ++ " minutes."
    confidence := 0.5
    risk := "low" }

/-- One heuristic-C day (lines 410-471): qualification by count or cumulative
minutes (`total_minutes >= 120`, i.e. at least 7200 seconds), the
existing-planning-block skip, the morning-then-afternoon free-slot search, and
the reservation of the proposed anchor. -/
def dailyStep (blocked : List (Int × Int)) (dk : Int) (dayEvents : List Event) :
    List Action × List String × List (Int × Int) :=
  let totalSecs := (dayEvents.map fun ev => ev.endTime - ev.start).sum
  let logHead := "[Daily anchor] " ++ isoformat dk ++ ": "
  if !(decide (3 ≤ dayEvents.length) || decide ((7200 : Int) ≤ totalSecs)) then
    ([], [logHead ++ toString dayEvents.length ++ " events, "
      ++ fmtMin0 totalSecs ++ "m; no action."], blocked)
  else if dayEvents.any (fun ev => strHasSub (strLower ev.title) "daily planning") then
    ([], [logHead ++ "planning block already exists; no action."], blocked)
  else
    let morningStart := dk * 86400 + 8 * 3600 + 30 * 60
    let morningEnd := dk * 86400 + 11 * 3600 + 30 * 60
    let afternoonStart := dk * 86400 + 13 * 3600
    let afternoonEnd := dk * 86400 + 17 * 3600 + 30 * 60
    let slot? :=
      match findFreeSlot dayEvents morningStart morningEnd 20 blocked with
      | some s => some s
      | none => findFreeSlot dayEvents afternoonStart afternoonEnd 20 blocked
    match slot? with
    | none => ([], [logHead ++ "qualified but no free 20m slot found."], blocked)
    | some slot =>
      ([anchorAction dk dayEvents slot],
       [logHead ++ "planning block proposed at " ++ isoformat slot ++ "."],
       blocked ++ [(slot, slot + 20 * 60)])

/-- Heuristic C over the sorted day groups, threading the reserved intervals. -/
def phaseC : List (Int × List Event) → List (Int × Int) →
    List Action × List String
  | [], _ => ([], [])
  | (dk, dayEvents) :: rest, blocked =>
    let s := dailyStep blocked dk dayEvents
    let r := phaseC rest s.2.2
    (s.1 ++ r.1, s.2.1 ++ r.2)

/-- `_build_actions` (lines 268-473): heuristic A on adjacent sorted pairs,
then heuristic B threading reservations from an empty list, then heuristic C
threading the reservations left by B; actions and debug lines are the
concatenations in that order. -/
def buildActions (events : List Event) : List Action × List String :=
  let sorted := sortEvents events
  let a := phaseA sorted
  let b := phaseB events sorted []
  let c := phaseC (groupDays sorted) b.2.2
  (a.1 ++ b.1 ++ c.1, a.2 ++ b.2.1 ++ c.2)

/-! ## Plan application (`calendar_hygiene.py` `_apply_actions` and
`tools/calendar_hygiene/mcp_wrapper.py` `apply`) -/

/-- The plan fields read at apply time.  `timeWindowStart`/`timeWindowEnd` are
the ISO strings of the persisted `time_window` object. -/
structure Plan where
  dataSource : String := ""
  calendarId : String := ""
  timeWindowStart : String := ""
  timeWindowEnd : String := ""
  proposedActions : List Action := []
deriving Repr, DecidableEq

/-- Deterministic stand-in for the external `codex` call of
`_apply_create_block` (lines 540-558), modelled as succeeding and returning a
canonical description of the created block. -/
def applyCreateBlock (a : Action) (calendarId : String) : String :=
  "created:" ++ calendarId ++ ":" ++ (a.title.getD "") ++ ":" ++ (a.start.getD "")
    ++ ":" ++ (a.endTime.getD "")

/-- One try-block of `_apply_actions` (lines 582-590): a non-`create_block`
action raises `RuntimeError`; a missing `title`/`start`/`end` key raises
`KeyError` inside `_apply_create_block` (keys read in that order); every
exception is caught and recorded per action. -/
def applyOne (a : Action) (calendarId : String) : Except String String :=
  if !(a.type == "create_block") then
    .error ("Unsupported action type for apply: " ++ a.type)
  else
    match a.title, a.start, a.endTime with
    | some _, some _, some _ => .ok (applyCreateBlock a calendarId)
    | none, _, _ => .error "KeyError: title"
    | some _, none, _ => .error "KeyError: start"
    | some _, some _, none => .error "KeyError: end"

/-- `action_map = {action["action_id"]: action for action in actions}` followed
by `.get(action_id)`: the last binding of a key wins. -/
def lastById (actions : List Action) (id : String) : Option Action :=
  actions.reverse.find? fun a => a.actionId == id

/-- The applied/failed pairs collected by `_apply_actions`. -/
structure ApplyResults where
  applied : List (String × String) := []
  failed : List (String × String) := []
deriving Repr, DecidableEq

/-- The not-found / apply dispatch of one `_apply_actions` iteration. -/
def cliCheckFound (calendarId : String) : Option Action → Except String String
  | none => .error "Action not found in plan."
  | some a => applyOne a calendarId

/-- The per-id outcome of one `_apply_actions` iteration (lines 575-590): the
not-found error, or the result of `applyOne` on the mapped action. -/
def cliOutcome (actions : List Action) (calendarId : String) (id : String) :
    Except String String :=
  cliCheckFound calendarId (lastById actions id)

/-- `calendar_hygiene.py` `_apply_actions` (lines 561-591). -/
def applyActions (plan : Plan) (actionIds : List String) :
    Except String ApplyResults :=
  if !(plan.dataSource == "mcp") then
    .error "Plan was generated without MCP data; apply aborted."
  else
    let calendarId := if !(plan.calendarId == "") then plan.calendarId else "primary"
    .ok (actionIds.foldl
      (fun res id =>
        match cliOutcome plan.proposedActions calendarId id with
        | .ok r => { res with applied := res.applied ++ [(id, r)] }
        | .error err => { res with failed := res.failed ++ [(id, err)] })
      {})

/-- `value.replace("Z", "+00:00")`. -/
def zReplace : List Char → List Char
  | [] => []
  | c :: rest =>
    if c == 'Z' then '+' :: '0' :: '0' :: ':' :: '0' :: '0' :: zReplace rest
    else c :: zReplace rest

/-- `mcp_wrapper.py` `_parse_iso` (lines 42-51): empty and unparseable are
`None`; `Z` becomes `+00:00`; a naive result is assumed UTC. -/
def wrapperParseIso (value : String) : Option Int :=
  if value == "" then none
  else (parseIso (String.mk (zReplace value.data))).map fun stamp => stamp.seconds

/-- The found-action validation of the wrapper (`mcp_wrapper.py` lines
210-223): type, parseable start/end, and the window containment check. -/
def wrapperCheckFound (windowStart windowEnd : Int) (id : String) :
    Option Action → Except String Action
  | none => .error ("Action " ++ id ++ " not found in plan.")
  | some a =>
    if !(a.type == "create_block") then
      .error ("Action " ++ id ++ " is not create_block.")
    else
      match wrapperParseIso (a.start.getD ""), wrapperParseIso (a.endTime.getD "") with
      | some s, some e =>
        if s < windowStart ∨ e > windowEnd then
          .error ("Action " ++ id ++ " outside plan time window.")
        else .ok a
      | _, _ => .error ("Action " ++ id ++ " missing start/end.")

/-- The outcome of the wrapper's per-action validation chain
(`mcp_wrapper.py` lines 204-223): the action to create, or the per-action
error message recorded when a check fails. -/
def wrapperActionOutcome (windowStart windowEnd : Int) (actions : List Action)
    (id : String) : Except String Action :=
  wrapperCheckFound windowStart windowEnd id (lastById actions id)

/-- The created/skipped/errors lists of `mcp_wrapper.py` `apply`. -/
structure WrapperResults where
  createdIds : List String := []
  skipped : List String := []
  errors : List String := []
deriving Repr, DecidableEq

/-- The action loop of `mcp_wrapper.py` `apply` (lines 204-234) with
`dry_run=False`; the external create call is the `applyCreateBlock` stand-in
(modelled as succeeding). -/
def wrapperApplyLoop (windowStart windowEnd : Int) (actions : List Action)
    (calendarId : String) (actionIds : List String) : WrapperResults :=
  actionIds.foldl
    (fun res id =>
      match wrapperActionOutcome windowStart windowEnd actions id with
      | .error msg =>
        { res with skipped := res.skipped ++ [id], errors := res.errors ++ [msg] }
      | .ok a =>
        { res with createdIds := res.createdIds ++ [applyCreateBlock a calendarId] })
    {}

/-- A wrapper reply: one of the early-exit envelopes, or the loop results. -/
inductive WrapperReply where
  | blocked (summary : String) (errors : List String)
  | ran (results : WrapperResults)
deriving Repr, DecidableEq

/-- `mcp_wrapper.py` `apply` (lines 117-255) with `dry_run=False`, modelled
from the loaded plan data (the plan-file read is the boundary). -/
def wrapperApply (plan : Plan) (actionIds : List String) (confirm : Bool) :
    WrapperReply :=
  if !confirm then
    .blocked "Confirmation required before applying changes."
      ["confirm=True is required when dry_run is False."]
  else if actionIds.isEmpty then
    .blocked "No action IDs provided." ["action_ids is required."]
  else if !(plan.dataSource == "mcp") then
    .blocked "Plan generated without MCP data; apply blocked."
      ["Plan data_source is not mcp."]
  else
    match wrapperParseIso plan.timeWindowStart, wrapperParseIso plan.timeWindowEnd with
    | some ws, some we =>
      .ran (wrapperApplyLoop ws we plan.proposedActions
        (if !(plan.calendarId == "") then plan.calendarId else "primary") actionIds)
    | _, _ =>
      .blocked "Plan time window is invalid."
        ["Missing or invalid time_window in plan."]

end Assistant

namespace Assistant

/-- C1: for every request, candidate, pool and optional old phrase, the correction
confidence is the clamp to `[0,1]` of the sum of the fixed bonuses 0.45 / 0.20 /
0.20 / 0.15 over the triggered rules, and it always lies in `[0,1]`, whichever of
the 16 on/off combinations of the four rules is triggered. -/
theorem computeConfidence_bounds (request : String) (candidate : Candidate)
    (candidates : List Candidate) (oldPhrase : Option String) :
    (computeConfidence request candidate candidates oldPhrase).1 =
      max 0 (min ((if confRuleQuoted candidate oldPhrase then (0.45 : ℚ) else 0)
          + (if confRuleRecency candidate candidates then 0.20 else 0)
          + (if confRuleNegation request then 0.20 else 0)
          + (if confRuleOverlap request candidate then 0.15 else 0)) 1)
      ∧ 0 ≤ (computeConfidence request candidate candidates oldPhrase).1
      ∧ (computeConfidence request candidate candidates oldPhrase).1 ≤ 1 := by
  refine ⟨rfl, le_max_left 0 _, ?_⟩
  exact max_le (by norm_num) (min_le_right _ 1)

/-- C6 counterexample: the router's tokenizer keeps the request-verb "build"
(its stopword set does not contain it), while the scoring module's tokenizer
drops it — the opposite of the claimed relationship. -/
theorem stopwords_counterexample :
    agentTokenize "build" = ["build"] ∧ scoringTokenize "build" = []
      ∧ agentStopwords.contains "build" = false
      ∧ scoringStopwords.contains "build" = true := by
  decide

/-- C6 amended: the scoring module's stopword set is the larger one, extending
the router's set with the request-verbs "build", "want", "need" (among others),
so for any text in which such a verb occurs as a token, the scoring module's
tokenize drops it while the router's tokenize keeps it. -/
theorem stopword_sets_relationship :
    (∀ w ∈ agentStopwords, w ∈ scoringStopwords)
      ∧ (∀ w ∈ ["build", "want", "need"],
          w ∉ agentStopwords ∧ w ∈ scoringStopwords)
      ∧ (∀ verb ∈ ["build", "want", "need"], ∀ text : String,
          verb ∈ pyTokenRuns text →
            verb ∈ agentTokenize text ∧ verb ∉ scoringTokenize text) := by
  refine ⟨by decide, by decide, ?_⟩
  intro verb hverb
  fin_cases hverb <;>
    exact fun text htok =>
      ⟨List.mem_filter.2 ⟨htok, by decide⟩,
       fun hmem => absurd (List.mem_filter.1 hmem).2 (by decide)⟩

/-- C6 witness: instantiating the amended relationship on a concrete query. -/
theorem stopword_sets_relationship_witness :
    "build" ∈ agentTokenize "we should build a tool"
      ∧ "build" ∉ scoringTokenize "we should build a tool" :=
  (stopword_sets_relationship).2.2 "build" (by decide)
    "we should build a tool" (by decide)

/-- Every entry of the ranked list has a non-negative score (it is a cast of a
sum of natural-number components). -/
theorem heuristicRank_score_nonneg (cands : List DCandidate) :
    ∀ r ∈ heuristicRank cands, 0 ≤ r.score := by
  intro r hr
  rw [heuristicRank, List.mem_insertionSort, List.mem_map] at hr
  obtain ⟨c, -, rfl⟩ := hr
  simp only [bestScore]
  positivity

/-- The head of the ranked list carries the maximal score. -/
theorem heuristicRank_head_max (cands : List DCandidate) (top : Ranked)
    (rest : List Ranked) (h : heuristicRank cands = top :: rest) :
    ∀ r ∈ heuristicRank cands, r.score ≤ top.score := by
  haveI htot : IsTotal Ranked (fun a b => b.score ≤ a.score) :=
    ⟨fun a b => le_total b.score a.score⟩
  haveI htrans : IsTrans Ranked (fun a b => b.score ≤ a.score) :=
    ⟨fun a b c hab hbc => le_trans hbc hab⟩
  have hs := List.sorted_insertionSort (fun a b : Ranked => b.score ≤ a.score)
    (cands.map fun item =>
      { id := item.id, title := item.title, url := item.url
        score := (bestScore item).1, parts := (bestScore item).2 })
  rw [show (List.insertionSort (fun a b : Ranked => b.score ≤ a.score)
      (cands.map fun item =>
        { id := item.id, title := item.title, url := item.url
          score := (bestScore item).1, parts := (bestScore item).2 }))
      = heuristicRank cands from rfl, h] at hs
  intro r hr
  rw [h] at hr
  rcases List.mem_cons.1 hr with hr | hr
  · exact hr ▸ le_rfl
  · exact (List.pairwise_cons.1 hs).1 r hr

/-- C7: on a non-empty pool the generic-branch confidence equals
`max(top − second, 0) / max(top, 1)` (with `second = 0` for a singleton pool),
lies in `[0,1]`, the top entry of the ranked list is maximal, and every
candidate's total score is the non-negative sum of its status (0 or 2),
impact (≤3), frequency (≤4), recency (≤2) and domain-bonus (≤1) components. -/
theorem heuristicConfidence_spec (cands : List DCandidate) (h : cands ≠ []) :
    ∃ top rest, heuristicRank cands = top :: rest ∧
      heuristicConfidence cands =
        max (top.score - ((rest.head?.map fun r => r.score).getD 0)) 0
          / max top.score 1
      ∧ 0 ≤ heuristicConfidence cands ∧ heuristicConfidence cands ≤ 1
      ∧ (∀ r ∈ heuristicRank cands, r.score ≤ top.score ∧ 0 ≤ r.score)
      ∧ (∀ c : DCandidate,
          (bestScore c).1 = (((bestScore c).2.statusScore + (bestScore c).2.impactScore
            + (bestScore c).2.frequencyScore + (bestScore c).2.recencyScore
            + (bestScore c).2.domainBonus : ℕ) : ℚ)
          ∧ ((bestScore c).2.statusScore = 0 ∨ (bestScore c).2.statusScore = 2)
          ∧ (bestScore c).2.impactScore ≤ 3
          ∧ (bestScore c).2.frequencyScore ≤ 4
          ∧ (bestScore c).2.recencyScore ≤ 2
          ∧ (bestScore c).2.domainBonus ≤ 1) := by
  have hlen : (heuristicRank cands).length = cands.length := by
    rw [heuristicRank]
    exact (List.perm_insertionSort _ _).length_eq.trans (List.length_map _ _)
  have hne : heuristicRank cands ≠ [] := by
    intro hnil
    rw [hnil] at hlen
    exact h (List.eq_nil_of_length_eq_zero hlen.symm)
  obtain ⟨top, rest, heq⟩ := List.exists_cons_of_ne_nil hne
  have hnn := heuristicRank_score_nonneg cands
  have htopnn : 0 ≤ top.score := hnn top (heq ▸ List.mem_cons_self top rest)
  have hsecnn : 0 ≤ ((rest.head?.map fun r => r.score).getD 0) := by
    cases rest with
    | nil => simp
    | cons r rs =>
      simpa using hnn r (heq ▸ List.mem_cons_of_mem top (List.mem_cons_self r rs))
  have hconf : heuristicConfidence cands =
      max (top.score - ((rest.head?.map fun r => r.score).getD 0)) 0
        / max top.score 1 := by
    rw [heuristicConfidence, heq]
  have hden : (0 : ℚ) ≤ max top.score 1 := le_trans zero_le_one (le_max_right _ _)
  refine ⟨top, rest, heq, hconf, ?_, ?_, ?_, ?_⟩
  · rw [hconf]
    exact div_nonneg (le_max_right _ 0) hden
  · rw [hconf]
    refine div_le_one_of_le₀ (max_le ?_ (le_trans zero_le_one (le_max_right _ _))) hden
    exact le_trans (sub_le_self _ hsecnn) (le_max_left _ _)
  · exact fun r hr => ⟨heuristicRank_head_max cands top rest heq r hr, hnn r hr⟩
  · intro c
    refine ⟨rfl, ?_, ?_, ?_, ?_, ?_⟩
    · simp only [bestScore]
      split <;> simp
    · simp only [bestScore, impactScores, List.lookup]
      repeat' split <;> simp_all
    · simp only [bestScore, frequencyScores, List.lookup]
      repeat' split <;> simp_all
    · simp only [bestScore]
      rcases c.recencyDays with _ | d
      · simp
      · by_cases h7 : d ≤ 7 <;> by_cases h30 : d ≤ 30 <;> simp [h7, h30]
    · simp only [bestScore]
      split <;> simp

/-- C7 witness: the bound instantiated on a concrete two-candidate pool. -/
theorem heuristicConfidence_spec_witness :
    ([{ id := "1", title := "A", status := "new", impact := "high",
        frequency := "daily", recencyDays := some 3, domain := ["pantry"] },
      { id := "2", title := "B", status := "shipped", impact := "low",
        frequency := "once" }] : List DCandidate) ≠ []
      ∧ 0 ≤ heuristicConfidence
          [{ id := "1", title := "A", status := "new", impact := "high",
             frequency := "daily", recencyDays := some 3, domain := ["pantry"] },
           { id := "2", title := "B", status := "shipped", impact := "low",
             frequency := "once" }]
      ∧ heuristicConfidence
          [{ id := "1", title := "A", status := "new", impact := "high",
             frequency := "daily", recencyDays := some 3, domain := ["pantry"] },
           { id := "2", title := "B", status := "shipped", impact := "low",
             frequency := "once" }] ≤ 1 := by
  have h := heuristicConfidence_spec
    [{ id := "1", title := "A", status := "new", impact := "high",
       frequency := "daily", recencyDays := some 3, domain := ["pantry"] },
     { id := "2", title := "B", status := "shipped", impact := "low",
       frequency := "once" }] (by decide)
  obtain ⟨top, rest, -, -, h0, h1, -⟩ := h
  exact ⟨by decide, h0, h1⟩

/-- C5 counterexample: the request "auto apply deploy notion update" contains a
deploy keyword and carries Notion-edit intent, yet routes to `prefs`, because
the preference rule precedes the deploy rule. -/
theorem route_precedence_counterexample :
    route "auto apply deploy notion update" false = "prefs"
      ∧ (routeDeployKeywords.any fun w =>
          strHasSub (strLower "auto apply deploy notion update") w) = true
      ∧ shouldEditNotion "auto apply deploy notion update" = true := by
  decide

/-- C5 amended: `force_scaffold` always forces the `scaffold` route; and a text
containing a deploy keyword together with Notion-edit intent routes to `deploy`
provided none of the earlier rules (the `apply_last` literals, the preference
keywords, the tool-request-correction pattern, the explicit `call` pattern)
matches — the deploy rule does precede the `edit_notion` rule. -/
theorem route_precedence (request : String)
    (h1 : (["apply that", "apply last preview", "apply last correction"].contains
        (pyStrip (strLower request))) = false)
    (h2 : shouldSetPrefs request = false)
    (h3 : shouldCorrectToolRequest request = false)
    (h4 : callMatch request = none)
    (h5 : (routeDeployKeywords.any fun w => strHasSub (strLower request) w) = true)
    (_h6 : shouldEditNotion request = true) :
    (∀ text : String, route text true = "scaffold")
      ∧ route request false = "deploy" := by
  refine ⟨fun text => rfl, ?_⟩
  have h1' : pyStrip (strLower request) ≠ "apply that"
      ∧ pyStrip (strLower request) ≠ "apply last preview"
      ∧ pyStrip (strLower request) ≠ "apply last correction" := by
    simpa using h1
  simp [route, h1'.1, h1'.2.1, h1'.2.2, h2, h3, h4, h5]

/-- C5 witness: the amended precedence instantiated on "deploy notion update". -/
theorem route_precedence_witness :
    route "deploy notion update" false = "deploy"
      ∧ route "anything" true = "scaffold" := by
  have h := route_precedence "deploy notion update" (by decide) (by decide)
    (by decide) (by decide) (by decide) (by decide)
  exact ⟨h.2, h.1 "anything"⟩

/-- C9: `_parse_prefs_request` only (possibly) rewrites the keys
`auto_apply_enabled` and `auto_apply_threshold`; every other key — in
particular `auto_apply_scope` — is returned unchanged, and whenever the
returned threshold differs from the stored one it has been clamped into
`[0,1]`. -/
theorem parsePrefsRequest_frame (request : String) (prefs : Prefs) :
    (∀ key : String, key ≠ "auto_apply_enabled" → key ≠ "auto_apply_threshold" →
        parsePrefsRequest request prefs key = prefs key)
      ∧ (∀ q : ℚ, parsePrefsRequest request prefs "auto_apply_threshold" = some (.pn q) →
          prefs "auto_apply_threshold" = some (.pn q) ∨ (0 ≤ q ∧ q ≤ 1)) := by
  constructor
  · intro key hk1 hk2
    rcases hscan : thresholdScan (strLower request).data with _ | g <;>
      simp [parsePrefsRequest, hscan, ite_apply, prefsSet, hk1, hk2]
  · intro q hq
    rcases hscan : thresholdScan (strLower request).data with _ | g
    · left
      have hu : parsePrefsRequest request prefs "auto_apply_threshold" =
          prefs "auto_apply_threshold" := by
        simp [parsePrefsRequest, hscan, ite_apply, prefsSet]
      rw [← hu]
      exact hq
    · right
      simp only [parsePrefsRequest] at hq
      rw [hscan] at hq
      simp only [prefsSet] at hq
      rw [if_pos trivial] at hq
      simp only [Option.some.injEq, PVal.pn.injEq] at hq
      exact ⟨hq ▸ le_max_left 0 _, hq ▸ max_le (by norm_num) (min_le_right _ 1)⟩

/-- C8: applying a plan whose `data_source` is not `"mcp"` raises before any
selected action id is processed, so no action from such a plan is ever
applied, whatever ids were selected. -/
theorem applyActions_requires_mcp (plan : Plan) (actionIds : List String)
    (h : plan.dataSource ≠ "mcp") :
    applyActions plan actionIds =
      .error "Plan was generated without MCP data; apply aborted." := by
  simp [applyActions, h]

/-- An applicable `create_block` action for the mock-plan witness. -/
def mockPlanAction : Action :=
  { actionId := "a1", type := "create_block",
    start := some "2026-01-02T09:00:00+00:00",
    endTime := some "2026-01-02T09:15:00+00:00", title := some "Prep" }

/-- C8 witness: a mock-sourced plan with a perfectly applicable selected
action is still rejected outright. -/
theorem applyActions_requires_mcp_witness :
    applyActions { dataSource := "mock", proposedActions := [mockPlanAction] }
        ["a1"] =
      .error "Plan was generated without MCP data; apply aborted." :=
  applyActions_requires_mcp _ _ (by decide)

/-- The out-of-window action used against the claimed apply-time window check. -/
def outsideAction : Action :=
  { actionId := "act-out", type := "create_block",
    start := some "2026-02-15T10:00:00+00:00",
    endTime := some "2026-02-15T10:15:00+00:00",
    title := some "Prep" }

/-- A plan whose recorded time window ends weeks before `outsideAction`. -/
def outsidePlan : Plan :=
  { dataSource := "mcp", calendarId := "primary",
    timeWindowStart := "2026-01-01T00:00:00+00:00",
    timeWindowEnd := "2026-01-08T00:00:00+00:00",
    proposedActions := [outsideAction] }

/-- C3 counterexample: `_apply_actions` applies a `create_block` action whose
start and end lie entirely outside the plan's recorded time window — the CLI
apply path never reads `time_window`. -/
theorem applyActions_ignores_window_counterexample :
    applyActions outsidePlan ["act-out"] =
      .ok { applied := [("act-out", applyCreateBlock outsideAction "primary")],
            failed := [] }
      ∧ wrapperParseIso outsidePlan.timeWindowEnd = some 1767830400
      ∧ wrapperParseIso (outsideAction.start.getD "") = some 1771149600
      ∧ (1767830400 : Int) < 1771149600 := by
  exact ⟨rfl, rfl, rfl, by norm_num⟩

/-- The generalized accumulator form of the wrapper apply loop: every id
appends exactly one entry, determined by its own validation outcome. -/
theorem wrapperApplyLoop_go (ws we : Int) (actions : List Action) (cal : String) :
    ∀ (ids : List String) (res : WrapperResults),
      ids.foldl
        (fun res id =>
          match wrapperActionOutcome ws we actions id with
          | .error msg =>
            { res with skipped := res.skipped ++ [id], errors := res.errors ++ [msg] }
          | .ok a =>
            { res with createdIds := res.createdIds ++ [applyCreateBlock a cal] })
        res =
      { createdIds := res.createdIds ++ (ids.filterMap fun id =>
          (wrapperActionOutcome ws we actions id).toOption.map
            fun a => applyCreateBlock a cal),
        skipped := res.skipped ++ (ids.filter fun id =>
          !(wrapperActionOutcome ws we actions id).toBool),
        errors := res.errors ++ (ids.filterMap fun id =>
          match wrapperActionOutcome ws we actions id with
          | .ok _ => none
          | .error msg => some msg) } := by
  intro ids
  induction ids with
  | nil => intro res; simp
  | cons id rest ih =>
    intro res
    rcases houtcome : wrapperActionOutcome ws we actions id with msg | a <;>
      simp [List.foldl_cons, houtcome, ih, Except.toOption, Except.toBool,
        List.filterMap_cons, List.filter_cons]

/-- The generalized accumulator form of the `_apply_actions` loop. -/
theorem applyActionsLoop_go (actions : List Action) (cal : String) :
    ∀ (ids : List String) (res : ApplyResults),
      ids.foldl
        (fun res id =>
          match cliOutcome actions cal id with
          | .ok r => { res with applied := res.applied ++ [(id, r)] }
          | .error err => { res with failed := res.failed ++ [(id, err)] })
        res =
      { applied := res.applied ++ (ids.filterMap fun id =>
          (cliOutcome actions cal id).toOption.map fun r => (id, r)),
        failed := res.failed ++ (ids.filterMap fun id =>
          match cliOutcome actions cal id with
          | .ok _ => none
          | .error err => some (id, err)) } := by
  intro ids
  induction ids with
  | nil => intro res; simp
  | cons id rest ih =>
    intro res
    rcases houtcome : cliOutcome actions cal id with err | r <;>
      simp [List.foldl_cons, houtcome, ih, Except.toOption, List.filterMap_cons]

/-- C3 amended: the spec's apply-time validation is implemented by the MCP
wrapper's apply entrypoint, not by `_apply_actions`.  On a confirmed non-dry
run of an MCP plan with a parseable window, the wrapper applies a selected
action exactly when it is found in the plan, is of type `create_block`, has
parseable start and end, and both lie within the plan's original time window;
every failing id yields exactly one skipped entry with a recorded per-action
error and never short-circuits the remaining ids.  The CLI `_apply_actions`
path validates only membership, the `create_block` type and (via `KeyError`)
the presence of `title`/`start`/`end`, with the same per-action,
non-short-circuiting error collection — and no window check. -/
theorem wrapperApply_validation (plan : Plan) (actionIds : List String)
    (hne : actionIds ≠ []) (hds : plan.dataSource = "mcp") (ws we : Int)
    (hws : wrapperParseIso plan.timeWindowStart = some ws)
    (hwe : wrapperParseIso plan.timeWindowEnd = some we) :
    (wrapperApply plan actionIds true =
        .ran { createdIds := actionIds.filterMap fun id =>
                 (wrapperActionOutcome ws we plan.proposedActions id).toOption.map
                   fun a => applyCreateBlock a
                     (if !(plan.calendarId == "") then plan.calendarId else "primary"),
               skipped := actionIds.filter fun id =>
                 !(wrapperActionOutcome ws we plan.proposedActions id).toBool,
               errors := actionIds.filterMap fun id =>
                 match wrapperActionOutcome ws we plan.proposedActions id with
                 | .ok _ => none
                 | .error msg => some msg })
      ∧ (∀ id a, wrapperActionOutcome ws we plan.proposedActions id = .ok a ↔
          (lastById plan.proposedActions id = some a ∧ a.type = "create_block"
            ∧ ∃ s e, wrapperParseIso (a.start.getD "") = some s
              ∧ wrapperParseIso (a.endTime.getD "") = some e
              ∧ ws ≤ s ∧ e ≤ we))
      ∧ (∀ (cal : String),
          applyActions plan actionIds =
            .ok { applied := actionIds.filterMap fun id =>
                    (cliOutcome plan.proposedActions
                      (if !(plan.calendarId == "") then plan.calendarId else "primary")
                      id).toOption.map fun r => (id, r),
                  failed := actionIds.filterMap fun id =>
                    match cliOutcome plan.proposedActions
                      (if !(plan.calendarId == "") then plan.calendarId else "primary")
                      id with
                    | .ok _ => none
                    | .error err => some (id, err) }
          ∧ ∀ id r, cliOutcome plan.proposedActions cal id = .ok r ↔
              ∃ a, lastById plan.proposedActions id = some a
                ∧ a.type = "create_block" ∧ a.title.isSome ∧ a.start.isSome
                ∧ a.endTime.isSome ∧ r = applyCreateBlock a cal) := by
  refine ⟨?_, ?_, ?_⟩
  · simp only [wrapperApply, hws, hwe]
    rw [if_neg (by simp), if_neg (by simp [hne]), if_neg (by simp [hds])]
    simp only [wrapperApplyLoop, wrapperApplyLoop_go]
    simp
  · intro id a
    rw [wrapperActionOutcome]
    constructor
    · intro h
      rcases hfind : lastById plan.proposedActions id with _ | a'
      · rw [hfind] at h
        exact absurd h (by simp [wrapperCheckFound])
      · rw [hfind] at h
        simp only [wrapperCheckFound] at h
        by_cases ht : (!(a'.type == "create_block")) = true
        · rw [if_pos ht] at h
          exact absurd h (by simp)
        · rw [if_neg ht] at h
          rcases hs : wrapperParseIso (a'.start.getD "") with _ | s <;>
            rcases he : wrapperParseIso (a'.endTime.getD "") with _ | e <;>
            rw [hs, he] at h
          · exact absurd h (by simp)
          · exact absurd h (by simp)
          · exact absurd h (by simp)
          · have h' : (if s < ws ∨ e > we then
                (Except.error ("Action " ++ id ++ " outside plan time window.")
                  : Except String Action)
                else .ok a') = .ok a := h
            by_cases hwin : s < ws ∨ e > we
            · rw [if_pos hwin] at h'
              exact absurd h' (by simp)
            · rw [if_neg hwin] at h'
              push_neg at hwin
              obtain rfl : a' = a := by simpa using h'
              exact ⟨rfl, by simpa using ht, s, e, hs, he, hwin.1, hwin.2⟩
    · rintro ⟨hfind, htype, s, e, hs, he, h1, h2⟩
      rw [hfind]
      simp only [wrapperCheckFound, hs, he]
      rw [if_neg (by simp [htype]),
        if_neg (by push_neg; exact ⟨h1, h2⟩)]
  · intro cal
    constructor
    · rw [applyActions]
      rw [if_neg (by simp [hds])]
      simp only [applyActionsLoop_go]
      simp
    · intro id r
      rw [cliOutcome]
      constructor
      · intro h
        rcases hfind : lastById plan.proposedActions id with _ | a
        · rw [hfind] at h
          exact absurd h (by simp [cliCheckFound])
        · rw [hfind] at h
          simp only [cliCheckFound, applyOne] at h
          by_cases ht : (!(a.type == "create_block")) = true
          · rw [if_pos ht] at h
            exact absurd h (by simp)
          · rw [if_neg ht] at h
            rcases htitle : a.title with _ | t <;>
              rcases hstart : a.start with _ | st <;>
              rcases hend : a.endTime with _ | en <;>
              rw [htitle, hstart, hend] at h <;>
              simp only [reduceCtorEq, Except.ok.injEq] at h
            exact ⟨a, rfl, by simpa using ht, by simp [htitle], by simp [hstart],
              by simp [hend], h.symm⟩
      · rintro ⟨a, hfind, htype, htitle, hstart, hend, rfl⟩
        rw [hfind]
        obtain ⟨t, ht⟩ := Option.isSome_iff_exists.1 htitle
        obtain ⟨st, hst⟩ := Option.isSome_iff_exists.1 hstart
        obtain ⟨en, hen⟩ := Option.isSome_iff_exists.1 hend
        simp only [cliCheckFound, applyOne, ht, hst, hen]
        rw [if_neg (by simp [htype])]

/-- The in-window action of the wrapper-apply witness. -/
def inWindowAction : Action :=
  { actionId := "act-in", type := "create_block",
    start := some "2026-01-02T09:00:00+00:00",
    endTime := some "2026-01-02T09:15:00+00:00",
    title := some "Prep" }

/-- The plan of the wrapper-apply witness. -/
def inWindowPlan : Plan :=
  { dataSource := "mcp", calendarId := "primary",
    timeWindowStart := "2026-01-01T00:00:00+00:00",
    timeWindowEnd := "2026-01-08T00:00:00+00:00",
    proposedActions := [inWindowAction] }

/-- C3 witness: one valid and one unknown id — the valid one is applied, the
unknown one is skipped with its own error, and the failure does not stop the
run. -/
theorem wrapperApply_validation_witness :
    wrapperApply inWindowPlan ["act-missing", "act-in"] true =
      .ran { createdIds := [applyCreateBlock inWindowAction "primary"],
             skipped := ["act-missing"],
             errors := ["Action act-missing not found in plan."] } := by
  have h := (wrapperApply_validation inWindowPlan ["act-missing", "act-in"]
    (by decide) rfl 1767225600 1767830400 (by decide) (by decide)).1
  rw [h]
  rfl

/-- C9 witness: on a concrete request, `auto_apply_scope` is untouched. -/
theorem parsePrefsRequest_frame_witness :
    parsePrefsRequest "set auto apply threshold to 1.5" (fun _ => none)
      "auto_apply_scope" = none :=
  (parsePrefsRequest_frame "set auto apply threshold to 1.5" (fun _ => none)).1
    "auto_apply_scope" (by decide) (by decide)

/-- C10: an unparseable (or missing, i.e. empty) preview timestamp makes
`_preview_is_fresh` return `False`, so an `apply_last` invocation with
`--execute` and without `--force` refuses to apply and raises the staleness
error instead. -/
theorem stalePreviewRefused (now : Int) (ts : String) (p : Preview)
    (h : parseIso ts = none) (hts : p.timestamp = ts)
    (htype : p.type = "notion_correction") :
    previewIsFresh now ts = .ok false
      ∧ applyLastGate false false (some p) now =
          .failed "Last preview is older than 24h. Re-run with --force." := by
  have h1 : previewIsFresh now ts = .ok false := by
    simp [previewIsFresh, h]
  refine ⟨h1, ?_⟩
  simp [applyLastGate, htype, hts, h1]

/-- Every action of heuristic A is a shorten suggestion for a pair of sorted
events. -/
theorem mem_phaseA {sortedEvents : List Event} {a : Action}
    (ha : a ∈ (phaseA sortedEvents).1) :
    ∃ c n, c ∈ sortedEvents ∧ n ∈ sortedEvents ∧ a = shortenAction c n := by
  simp only [phaseA, List.mem_flatMap] at ha
  obtain ⟨⟨c, n⟩, hp, hap⟩ := ha
  have hmem := List.of_mem_zip hp
  refine ⟨c, n, hmem.1, List.mem_of_mem_tail hmem.2, ?_⟩
  simp only [pairStep] at hap
  split_ifs at hap <;> simp_all

/-- Every action of one heuristic-B iteration is the prep or travel block of
that event. -/
theorem mem_medicalStep {events : List Event} {blocked : List (Int × Int)}
    {ev : Event} {a : Action} (ha : a ∈ (medicalStep events blocked ev).1) :
    a = prepAction ev ∨ a = travelAction ev := by
  simp only [medicalStep, prepPart, travelPart] at ha
  split_ifs at ha <;> simp_all

/-- Every action of heuristic B is the prep or travel block of a listed event. -/
theorem mem_phaseB {events : List Event} {a : Action} :
    ∀ (l : List Event) (blocked : List (Int × Int)),
      a ∈ (phaseB events l blocked).1 →
        ∃ ev ∈ l, a = prepAction ev ∨ a = travelAction ev := by
  intro l
  induction l with
  | nil => intro blocked ha; simp [phaseB] at ha
  | cons ev rest ih =>
    intro blocked ha
    simp only [phaseB, List.mem_append] at ha
    rcases ha with ha | ha
    · exact ⟨ev, List.mem_cons_self _ _, mem_medicalStep ha⟩
    · obtain ⟨ev', hmem, h⟩ := ih _ ha
      exact ⟨ev', List.mem_cons_of_mem _ hmem, h⟩

/-- Every action of one heuristic-C day is that day's anchor block at some
slot. -/
theorem mem_dailyStep {blocked : List (Int × Int)} {dk : Int}
    {dayEvents : List Event} {a : Action}
    (ha : a ∈ (dailyStep blocked dk dayEvents).1) :
    ∃ slot, a = anchorAction dk dayEvents slot := by
  simp only [dailyStep] at ha
  split_ifs at ha
  · simp at ha
  · simp at ha
  · rcases hm : findFreeSlot dayEvents (dk * 86400 + 8 * 3600 + 30 * 60)
        (dk * 86400 + 11 * 3600 + 30 * 60) 20 blocked with _ | s
    · rw [hm] at ha
      rcases haf : findFreeSlot dayEvents (dk * 86400 + 13 * 3600)
          (dk * 86400 + 17 * 3600 + 30 * 60) 20 blocked with _ | s'
      · rw [haf] at ha
        simp at ha
      · rw [haf] at ha
        simp at ha
        exact ⟨s', ha⟩
    · rw [hm] at ha
      simp at ha
      exact ⟨s, ha⟩

/-- Every action of heuristic C is an anchor block of a listed day. -/
theorem mem_phaseC {a : Action} :
    ∀ (days : List (Int × List Event)) (blocked : List (Int × Int)),
      a ∈ (phaseC days blocked).1 →
        ∃ dk dayEvents slot, (dk, dayEvents) ∈ days
          ∧ a = anchorAction dk dayEvents slot := by
  intro days
  induction days with
  | nil => intro blocked ha; simp [phaseC] at ha
  | cons day rest ih =>
    intro blocked ha
    obtain ⟨dk, dayEvents⟩ := day
    simp only [phaseC, List.mem_append] at ha
    rcases ha with ha | ha
    · obtain ⟨slot, rfl⟩ := mem_dailyStep ha
      exact ⟨dk, dayEvents, slot, List.mem_cons_self _ _, rfl⟩
    · obtain ⟨dk', de', slot, hmem, rfl⟩ := ih _ ha
      exact ⟨dk', de', slot, List.mem_cons_of_mem _ hmem, rfl⟩

/-- The canonical seed shapes of the planner: action kind, referenced event
id(s) and the governing boundary timestamp (for the daily anchor: the day key
and the chosen slot). -/
def canonicalSeed (events : List Event) (seed : String) : Prop :=
  (∃ c n, c ∈ events ∧ n ∈ events
      ∧ seed = "suggest_shorten:" ++ c.eventId ++ ":" ++ n.eventId ++ ":"
        ++ isoformat c.endTime)
    ∨ (∃ ev, ev ∈ events
        ∧ seed = "create_block:prep:" ++ ev.eventId ++ ":" ++ isoformat ev.start)
    ∨ (∃ ev, ev ∈ events
        ∧ seed = "create_block:travel_from:" ++ ev.eventId ++ ":"
          ++ isoformat ev.endTime)
    ∨ (∃ dk slot : Int,
        seed = "create_block:daily_admin:" ++ isoformat dk ++ ":" ++ isoformat slot)

/-- C2: the planner is deterministic — rerunning `_build_actions` on the same
event list yields the identical `proposed_actions` list (the function consults
no ambient state in the embedding), and every emitted action's id is the hash
digest of a canonical seed built from the action kind, the referenced event
id(s) and a boundary ISO timestamp. -/
theorem buildActions_deterministic (events : List Event) :
    buildActions events = buildActions events
      ∧ ∀ a ∈ (buildActions events).1,
          ∃ seed, canonicalSeed events seed ∧ a.actionId = actionId seed := by
  refine ⟨rfl, ?_⟩
  intro a ha
  simp only [buildActions, List.mem_append] at ha
  rcases ha with (ha | ha) | ha
  · obtain ⟨c, n, hc, hn, rfl⟩ := mem_phaseA ha
    rw [sortEvents, List.mem_insertionSort] at hc hn
    exact ⟨_, Or.inl ⟨c, n, hc, hn, rfl⟩, rfl⟩
  · obtain ⟨ev, hev, h⟩ := mem_phaseB _ _ ha
    rw [sortEvents, List.mem_insertionSort] at hev
    rcases h with rfl | rfl
    · exact ⟨_, Or.inr (Or.inl ⟨ev, hev, rfl⟩), rfl⟩
    · exact ⟨_, Or.inr (Or.inr (Or.inl ⟨ev, hev, rfl⟩)), rfl⟩
  · obtain ⟨dk, dayEvents, slot, -, rfl⟩ := mem_phaseC _ _ ha
    exact ⟨_, Or.inr (Or.inr (Or.inr ⟨dk, slot, rfl⟩)), rfl⟩

/-- The single-medical-event list used to witness the planner claims. -/
def medicalEvent : Event :=
  { eventId := "m1", title := "Doctor visit", start := 100000, endTime := 103600 }

/-- C2 witness: on a concrete event list the prep block is emitted and its id
is the digest of a canonical seed. -/
theorem buildActions_deterministic_witness :
    ∃ seed, canonicalSeed [medicalEvent] seed
      ∧ (prepAction medicalEvent).actionId = actionId seed :=
  (buildActions_deterministic [medicalEvent]).2 (prepAction medicalEvent)
    (by rw [show (buildActions [medicalEvent]).1 = [prepAction medicalEvent] from rfl]
        exact List.mem_cons_self _ _)

/-- Two back-to-back half-hour events with a gap of exactly zero. -/
def zeroGapFirst : Event :=
  { eventId := "e1", title := "Sync A", start := 0, endTime := 1800 }

/-- The second event, starting exactly when the first ends. -/
def zeroGapSecond : Event :=
  { eventId := "e2", title := "Sync B", start := 1800, endTime := 3600 }

/-- C4 counterexample: a gap of exactly zero minutes — which the claim says
yields no action, since it is not strictly positive — does produce a
`suggest_shorten` action on the earlier event (`gap_minutes <= 5` is checked
after only the strictly negative case is excluded). -/
theorem backToBack_zero_gap_counterexample :
    gapMinutes zeroGapFirst zeroGapSecond = 0
      ∧ (buildActions [zeroGapFirst, zeroGapSecond]).1
          = [shortenAction zeroGapFirst zeroGapSecond]
      ∧ (shortenAction zeroGapFirst zeroGapSecond).type = "suggest_shorten"
      ∧ (shortenAction zeroGapFirst zeroGapSecond).targetEventId = some "e1" := by
  refine ⟨?_, rfl, rfl, rfl⟩
  norm_num [gapMinutes, zeroGapFirst, zeroGapSecond]

/-- C4 amended: for every chronologically adjacent pair the planner proposes a
`suggest_shorten` on the earlier event (confidence 0.4, risk low) exactly when
the gap is *at least* zero and at most 5 minutes; a negative gap (overlap)
yields no action and only the overlap log line; a gap above 5 minutes yields
no action; and the planner's action list opens with exactly these per-pair
contributions over the sorted adjacent pairs. -/
theorem backToBack_characterization (events : List Event) (c n : Event) :
    ((pairStep c n).1 ≠ [] ↔ 0 ≤ gapMinutes c n ∧ gapMinutes c n ≤ 5)
      ∧ (0 ≤ gapMinutes c n → gapMinutes c n ≤ 5 →
          (pairStep c n).1 = [shortenAction c n])
      ∧ (gapMinutes c n < 0 → (pairStep c n).1 = []
          ∧ (pairStep c n).2 = [overlapLog c n])
      ∧ (5 < gapMinutes c n → (pairStep c n).1 = [])
      ∧ (shortenAction c n).confidence = 0.4
      ∧ (shortenAction c n).risk = "low"
      ∧ (shortenAction c n).targetEventId = some c.eventId
      ∧ (buildActions events).1 =
          ((sortEvents events).zip (sortEvents events).tail).flatMap
              (fun p => (pairStep p.1 p.2).1)
            ++ ((phaseB events (sortEvents events) []).1
              ++ (phaseC (groupDays (sortEvents events))
                  (phaseB events (sortEvents events) []).2.2).1) := by
  have hgap0 : 0 ≤ gapMinutes c n ↔ 0 ≤ n.start - c.endTime := by
    rw [gapMinutes, le_div_iff₀ (by norm_num : (0 : ℚ) < 60), zero_mul]
    exact_mod_cast Iff.rfl
  have hgap5 : gapMinutes c n ≤ 5 ↔ n.start - c.endTime ≤ 300 := by
    rw [gapMinutes, div_le_iff₀ (by norm_num : (0 : ℚ) < 60),
      show (5 : ℚ) * 60 = 300 from by norm_num]
    exact_mod_cast Iff.rfl
  refine ⟨?_, ?_, ?_, ?_, rfl, rfl, rfl, by simp only [buildActions, phaseA, List.append_assoc]⟩
  · simp only [pairStep]
    constructor
    · intro hne
      split_ifs at hne with h1 h2
      · simp at hne
      · exact ⟨hgap0.2 (by omega), hgap5.2 h2⟩
      · simp at hne
    · rintro ⟨h0, h5⟩
      rw [if_neg (not_lt.mpr (hgap0.1 h0)), if_pos (hgap5.1 h5)]
      simp
  · intro h0 h5
    simp only [pairStep]
    rw [if_neg (not_lt.mpr (hgap0.1 h0)), if_pos (hgap5.1 h5)]
  · intro hneg
    have hs : n.start - c.endTime < 0 := by
      by_contra hcon
      push_neg at hcon
      exact absurd (hgap0.2 hcon) (not_le.2 hneg)
    simp only [pairStep]
    rw [if_pos hs]
    exact ⟨rfl, rfl⟩
  · intro h5
    have hs : ¬(n.start - c.endTime ≤ 300) := fun hcon =>
      absurd (hgap5.2 hcon) (not_le.2 h5)
    have h0 : ¬(n.start - c.endTime < 0) := not_lt.mpr (by omega)
    simp only [pairStep]
    rw [if_neg h0, if_neg hs]

/-- Two overlapping events witnessing the negative-gap branch. -/
def overlapFirst : Event :=
  { eventId := "o1", title := "Overlap A", start := 0, endTime := 3600 }

/-- The second overlapping event. -/
def overlapSecond : Event :=
  { eventId := "o2", title := "Overlap B", start := 1800, endTime := 5400 }

/-- C4 witness: a negative gap yields no action (logged only) and a 3-minute
gap lies in the action-producing range. -/
theorem backToBack_characterization_witness :
    (pairStep overlapFirst overlapSecond).1 = []
      ∧ (pairStep zeroGapFirst
          { zeroGapSecond with start := 1980, endTime := 3780 }).1
        = [shortenAction zeroGapFirst
            { zeroGapSecond with start := 1980, endTime := 3780 }] := by
  constructor
  · exact ((backToBack_characterization [] overlapFirst overlapSecond).2.2.1
      (by norm_num [gapMinutes, overlapFirst, overlapSecond])).1
  · exact (backToBack_characterization [] zeroGapFirst
      { zeroGapSecond with start := 1980, endTime := 3780 }).2.1
      (by norm_num [gapMinutes, zeroGapFirst, zeroGapSecond])
      (by norm_num [gapMinutes, zeroGapFirst, zeroGapSecond])

/-- C10 witness: a malformed timestamp and the empty timestamp, both refused. -/
theorem stalePreviewRefused_witness :
    applyLastGate false false
        (some { type := "notion_correction", pageId := "page-1",
                timestamp := "not-a-timestamp" }) 0 =
      .failed "Last preview is older than 24h. Re-run with --force."
      ∧ previewIsFresh 0 "" = .ok false :=
  ⟨(stalePreviewRefused 0 "not-a-timestamp"
      { type := "notion_correction", pageId := "page-1",
        timestamp := "not-a-timestamp" } (by decide) rfl rfl).2,
   (stalePreviewRefused 0 ""
      { type := "notion_correction", timestamp := "" } (by decide) rfl rfl).1⟩

end Assistant
